import Mathlib

/-!
Verification of the go-s3-uploader core against its specification.

The development shallowly embeds the upload pipeline of `setup.go`, the
thread-safe rejection list of the repository, the backoff computation, the
cache finalization phase of `main`, and the header-resolution rules.  Parts
of the repository that are not present in the sources we verify against
(the `sourceFile` helpers, `isRecoverable`, and the external
`github.com/alexaandru/utils` FileHashes operations) are modelled from the
specification; each such definition is marked in its doc comment.
-/

namespace GoS3Uploader

/-- Process exit codes, from the `const` block of setup.go
(`Success = iota; SetupFailed; S3AuthError; CmdLineOptionError; CachingFailure`). -/
def Success : Nat := 0

/-- Exit code for setup failures (setup.go const block). -/
def SetupFailed : Nat := 1

/-- Exit code for S3 authentication errors (setup.go const block). -/
def S3AuthError : Nat := 2

/-- Exit code for command-line option errors (setup.go const block). -/
def CmdLineOptionError : Nat := 3

/-- Exit code used by `main` when persisting the cache fails (setup.go const block). -/
def CachingFailure : Nat := 4

/-- Maximum number of attempts to retry a failed upload
(setup.go: `const maxTries = 10`). -/
def maxTries : Nat := 10

/-- The test environment marker (setup.go: `const testEnv = "test"`). -/
def testEnv : String := "test"

/-- One operation of the thread-safe rejection list: `syncedList.add` appends
the item to the underlying slice while holding the mutex
(`sl.list = append(sl.list, item)`).  The mutex serializes mutations, so the
sequence of adds performed during a run is modelled as a sequential fold of
this operation. -/
def syncedListAdd (l : List String) (item : String) : List String :=
  l ++ [item]

/-- Delay, in nanoseconds, scheduled before re-enqueueing a failed item, from
the retry goroutine in `upload` (setup.go):
`wait := time.Duration(100.0*math.Pow(2, float64(src.attempts))) * time.Millisecond;
if appEnv == testEnv { wait = time.Nanosecond }`.
For the attempt counts at which a retry is actually scheduled
(`attempts < maxTries`) the float computation `100.0 * 2^attempts` is exact,
so the Nat translation is faithful; one millisecond is 1000000 nanoseconds. -/
def waitNs (env : String) (attempts : Nat) : Nat :=
  if env = testEnv then 1 else 100 * 2 ^ attempts * 1000000

/-- Modelled from the spec: `TransferError` of the StoreClient abstraction
"must be classifiable by the pipeline as recoverable ... or fatal".  The
classification function `isRecoverable` (repository file `utils.go`, absent
from the sources) is abstracted by carrying the classification bit on the
error itself. -/
structure TransferError where
  recoverable : Bool
deriving DecidableEq, Repr

/-- Modelled from the spec: `isRecoverable` (repository file `utils.go`,
absent from the sources) classifies a transfer error as recoverable or
fatal; here it reads the classification carried by the error. -/
def isRecoverable (e : TransferError) : Bool :=
  e.recoverable

/-- Terminal state of a work item: uploaded (success) or rejected. -/
inductive Terminal where
  | uploaded
  | rejected
deriving DecidableEq, Repr

/-- Observable outcome of driving one work item to a terminal state:
how many times the store function was invoked, the backoff delays scheduled
(in nanoseconds, in order), and the terminal state reached. -/
structure ItemRun where
  storeCalls : Nat
  delays : List Nat
  result : Terminal
deriving DecidableEq, Repr

/-- Core of the worker loop of `upload` (setup.go), followed for a single
work item from attempt counter `a` until a terminal state.  `fn k` is the
outcome of the store call made while the attempt counter equals `k`
(`none` = success).  On failure the counter is incremented
(`src.recordAttempt()`); if the item is out of retries or the error is not
recoverable (`!src.retriable() || !isRecoverable(err)`) the item is
rejected, otherwise a delay of `waitNs env (a+1)` is scheduled and the item
re-enters the queue.  `retriable` (repository file `source_file.go`, absent
from the sources) is modelled from the spec as
`attempts < max-tries`.  The fuel argument is bookkeeping for termination;
`maxTries - a` steps always suffice. -/
def processFrom (env : String) (fn : Nat → Option TransferError) :
    Nat → Nat → ItemRun
  | _, 0 => ⟨0, [], Terminal.rejected⟩
  | a, fuel + 1 =>
    match fn a with
    | none => ⟨1, [], Terminal.uploaded⟩
    | some e =>
      if a + 1 < maxTries ∧ isRecoverable e = true then
        let rest := processFrom env fn (a + 1) fuel
        ⟨rest.storeCalls + 1, waitNs env (a + 1) :: rest.delays, rest.result⟩
      else ⟨1, [], Terminal.rejected⟩

/-- Processing of one work item by the worker loop of `upload` (setup.go).
In dry-run mode the worker reports success without calling the store
function at all (`if opts.dryRun { say(...); wgUploads.Done(); continue }`);
otherwise the item starts with attempt counter 0 and is driven to a
terminal state. -/
def processItem (env : String) (dryRun : Bool)
    (fn : Nat → Option TransferError) : ItemRun :=
  if dryRun then ⟨0, [], Terminal.uploaded⟩
  else processFrom env fn 0 maxTries

/-- Processing of one work item together with its effect on the rejection
list: the worker calls `rejected.add(src.fname)` exactly when the item is
rejected (setup.go, `upload`). -/
def runItemLogged (env : String) (dryRun : Bool)
    (fn : Nat → Option TransferError) (fname : String)
    (rejected : List String) : ItemRun × List String :=
  let r := processItem env dryRun fn
  (r, if r.result = Terminal.rejected then syncedListAdd rejected fname
      else rejected)

/-- A fingerprint set: relative path paired with its content hash, keyed by
path (Go map `utils.FileHashes`; the Go map has unique keys). -/
abbrev FileHashes := List (String × String)

/-- Modelled from the spec: `utils.FileHashes.Diff` (external package
`github.com/alexaandru/utils`, not in the sources) returns "exactly the
paths present in `current` with no matching hash in `old`": a path is
changed if absent from `old` or its hash differs. -/
def FileHashes.diff (current old : FileHashes) : List String :=
  (current.filter (fun kv => old.lookup kv.1 != some kv.2)).map Prod.fst

/-- Modelled from the spec: `utils.FileHashes.Reject` (external package
`github.com/alexaandru/utils`, not in the sources) "returns a copy
excluding given paths". -/
def FileHashes.reject (fh : FileHashes) (paths : List String) : FileHashes :=
  fh.filter (fun kv => !(paths.contains kv.1))

/-- Work list seeded into the pipeline by `main` (setup.go):
`sort.Strings(diff)` sorts the changed paths lexicographically before they
are sent, one per path, to the uploads channel.  Sorting is modelled by
insertion sort, which yields the same result as any sort under the linear
order on strings. -/
def seedList (current old : FileHashes) : List String :=
  List.insertionSort (fun a b => a ≤ b) (FileHashes.diff current old)

/-- State of the cache file on disk. -/
structure Disk where
  cache : Option FileHashes
deriving DecidableEq, Repr

/-- Modelled from the spec: `utils.FileHashes.Dump` (external package
`github.com/alexaandru/utils`, not in the sources) "atomically writes the
fingerprint set; on write failure the previous cache file must remain
intact (write-to-temp-then-rename discipline)".  `writeOk` is whether the
underlying write succeeds; the returned Bool is the success flag (false
means an error was returned to the caller). -/
def dump (fh : FileHashes) (writeOk : Bool) (d : Disk) : Disk × Bool :=
  if writeOk then ({ cache := some fh }, true) else (d, false)

/-- Outcome of the cache phase of `main` (setup.go, label `Cache:`). -/
inductive CacheOutcome where
  | skippedNoCache
  | skippedDryRun
  | wrote (fh : FileHashes)
  | writeFailed
deriving DecidableEq, Repr

/-- Cache phase of `main` (setup.go): if `-cache=false` the phase is
skipped; if dry-run, `main` only says "Pretending to update cache." and
jumps to `Done` without touching the file; otherwise
`current = current.Reject(rejected.list)` and `current.Dump(opts.CacheFile)`
is attempted. -/
def runCachePhase (doCache dryRun : Bool) (current : FileHashes)
    (rejectedList : List String) (writeOk : Bool) (d : Disk) :
    CacheOutcome × Disk :=
  if ¬doCache then (CacheOutcome.skippedNoCache, d)
  else if dryRun then (CacheOutcome.skippedDryRun, d)
  else
    let fin := FileHashes.reject current rejectedList
    let res := dump fin writeOk d
    if res.2 then (CacheOutcome.wrote fin, res.1)
    else (CacheOutcome.writeFailed, res.1)

/-- Exit code produced by `main` after the cache phase (setup.go): a failed
`Dump` exits with `CachingFailure`; otherwise the run ends successfully. -/
def cacheExitCode : CacheOutcome → Nat
  | CacheOutcome.writeFailed => CachingFailure
  | _ => Success

/-- HTTP header set attached to an upload, from the `headers` literals of
`customHeadersDef` (setup.go); an empty string means the directive is
absent. -/
structure headers where
  ContentEncoding : String := ""
  CacheControl : String := ""
deriving DecidableEq, Repr

/-- Derived compress-in-transit flag: a file is gzipped on the fly exactly
when its resolved content encoding is "gzip" (the `src.gzip` flag consumed
by `s3putGenWithUploader` in setup.go). -/
def headers.shouldCompress (h : headers) : Bool :=
  h.ContentEncoding == "gzip"

/-- One header rule: a path pattern paired with the header set it yields
(the `pathToHeaders` entries of `customHeadersDef` in setup.go, whose
comment states "Order matters: first hit, first served").  Pattern matching
against a path is abstracted as a Boolean predicate on the path string. -/
structure pathToHeaders where
  hits : String → Bool
  hdrs : headers

/-- Modelled from the spec: the header-resolution loop (repository file
`source_file.go`, absent from the sources) "iterates rules in declaration
order; returns the header-set of the first pattern that matches; if no rule
matches, returns an empty header-set".  The result depends on nothing but
the rule list and the path string, so resolution is pure by construction. -/
def resolveHeaders (rules : List pathToHeaders) (path : String) : headers :=
  match rules.find? (fun rule => rule.hits path) with
  | some rule => rule.hdrs
  | none => {}

/-! ### Helper lemmas -/

/-- Folding `syncedListAdd` over a batch of items appends the batch. -/
theorem foldl_syncedListAdd (items : List String) :
    ∀ l : List String, List.foldl syncedListAdd l items = l ++ items := by
  induction items with
  | nil => intro l; simp
  | cons y ys ih =>
    intro l
    rw [List.foldl_cons, ih (syncedListAdd l y), syncedListAdd]
    simp

/-- With duplicate-free keys (as in a Go map), association-list lookup agrees
with membership of the key-value pair. -/
theorem lookup_eq_some_iff_mem (fh : FileHashes) (p h : String)
    (hnd : (fh.map Prod.fst).Nodup) : fh.lookup p = some h ↔ (p, h) ∈ fh := by
  induction fh with
  | nil => simp
  | cons kv t ih =>
    obtain ⟨k, v⟩ := kv
    simp only [List.map_cons, List.nodup_cons, List.mem_map] at hnd
    by_cases hpk : p = k
    · subst hpk
      simp only [List.lookup_cons_self, List.mem_cons, Option.some.injEq,
        Prod.mk.injEq, true_and]
      constructor
      · intro hv; exact Or.inl hv.symm
      · rintro (rfl | hmem)
        · rfl
        · exact absurd ⟨(p, h), hmem, rfl⟩ hnd.1
    · rw [List.lookup_cons]
      have hbeq : (p == k) = false := by simpa using hpk
      simp only [hbeq, cond_false]
      rw [ih hnd.2]
      simp only [List.mem_cons, Prod.mk.injEq]
      constructor
      · exact Or.inr
      · rintro (⟨rfl, _⟩ | hmem)
        · exact absurd rfl hpk
        · exact hmem

/-- Membership in a rejected fingerprint set. -/
theorem mem_reject_iff (fh : FileHashes) (paths : List String) (p h : String) :
    (p, h) ∈ FileHashes.reject fh paths ↔ (p, h) ∈ fh ∧ p ∉ paths := by
  simp [FileHashes.reject, List.mem_filter]

/-- If every store call fails with a recoverable error, the retry loop makes
exactly `fuel` further store calls, schedules `fuel - 1` delays, and ends
rejected, whenever the fuel accounts exactly for the remaining tries. -/
theorem processFrom_allFail (env : String) (fn : Nat → Option TransferError)
    (e : TransferError) (he : isRecoverable e = true) (hfn : ∀ k, fn k = some e) :
    ∀ fuel a, 0 < fuel → a + fuel = maxTries →
      processFrom env fn a fuel
        = ⟨fuel, (List.range (fuel - 1)).map (fun i => waitNs env (a + 1 + i)),
            Terminal.rejected⟩ := by
  intro fuel
  induction fuel with
  | zero => intro a hpos; exact absurd hpos (by simp)
  | succ f ih =>
    intro a _ hsum
    simp only [processFrom, hfn]
    by_cases hf : f = 0
    · subst hf
      rw [if_neg]
      · simp
      · rintro ⟨hlt, _⟩
        omega
    · rw [if_pos ⟨by omega, he⟩]
      simp only [ih (a + 1) (Nat.pos_of_ne_zero hf) (by omega), ItemRun.mk.injEq]
      refine ⟨trivial, ?_, trivial⟩
      obtain ⟨g, rfl⟩ := Nat.exists_eq_succ_of_ne_zero hf
      rw [Nat.add_sub_cancel, List.range_succ_eq_map]
      simp only [Nat.succ_sub_one, List.map_cons, List.map_map, Nat.add_zero,
        List.cons.injEq]
      refine ⟨trivial, ?_⟩
      apply List.map_congr_left
      intro i _
      simp only [Function.comp_apply]
      congr 1
      omega

/-- With a predicate true at index `i` and false at all earlier indices,
`find?` returns the element at index `i`. -/
theorem find_first_hit (rules : List pathToHeaders) (path : String) :
    ∀ i (hi : i < rules.length),
      (rules.get ⟨i, hi⟩).hits path = true →
      (∀ j (hj : j < i), (rules.get ⟨j, Nat.lt_trans hj hi⟩).hits path = false) →
      rules.find? (fun rule => rule.hits path) = some (rules.get ⟨i, hi⟩) := by
  induction rules with
  | nil => intro i hi; exact absurd hi (by simp)
  | cons r rs ih =>
    intro i hi hhit hprev
    match i with
    | 0 => exact List.find?_cons_of_pos _ hhit
    | Nat.succ j =>
      have hr : r.hits path = false := hprev 0 (Nat.succ_pos j)
      rw [List.find?_cons_of_neg _ (by simp [hr])]
      exact ih j (Nat.lt_of_succ_lt_succ hi) hhit
        (fun m hm => hprev (m + 1) (Nat.succ_lt_succ hm))

/-- A fatal first store call rejects the item immediately, whatever fuel
remains. -/
theorem processFrom_fatal (env : String) (fn : Nat → Option TransferError)
    (e : TransferError) (he : isRecoverable e = false) (a fuel : Nat)
    (h0 : fn a = some e) :
    processFrom env fn a (fuel + 1) = ⟨1, [], Terminal.rejected⟩ := by
  simp only [processFrom, h0]
  rw [if_neg]
  rintro ⟨_, hrec⟩
  simp [he] at hrec

/-! ### Claim theorems -/

/-- C2: for every work item whose store operation fails with a recoverable
error on every attempt, the pipeline performs exactly `maxTries` (10) upload
attempts, then adds the path to the rejection list, with no further retry
(`maxTries - 1` retry delays are scheduled, none after the rejection). -/
theorem C2_recoverable_retry_bound (env : String)
    (fn : Nat → Option TransferError) (e : TransferError)
    (he : isRecoverable e = true) (hfn : ∀ k, fn k = some e)
    (fname : String) (rl : List String) :
    (processItem env false fn).storeCalls = maxTries
    ∧ (processItem env false fn).result = Terminal.rejected
    ∧ (processItem env false fn).delays.length = maxTries - 1
    ∧ (runItemLogged env false fn fname rl).2 = rl ++ [fname] := by
  have hall := processFrom_allFail env fn e he hfn maxTries 0
    (by simp [maxTries]) (by omega)
  have hp : processItem env false fn
      = ⟨maxTries,
          (List.range (maxTries - 1)).map (fun i => waitNs env (0 + 1 + i)),
          Terminal.rejected⟩ := by
    simpa [processItem] using hall
  refine ⟨by rw [hp], by rw [hp], by rw [hp]; simp, ?_⟩
  simp [runItemLogged, hp, syncedListAdd]

/-- Witness for C2 at a concrete always-failing recoverable store stub. -/
theorem C2_recoverable_retry_bound_witness :
    (processItem "production" false (fun _ => some ⟨true⟩)).storeCalls = maxTries
    ∧ (processItem "production" false (fun _ => some ⟨true⟩)).result
        = Terminal.rejected
    ∧ (processItem "production" false (fun _ => some ⟨true⟩)).delays.length
        = maxTries - 1
    ∧ (runItemLogged "production" false (fun _ => some ⟨true⟩) "e.txt" []).2
        = [] ++ ["e.txt"] :=
  C2_recoverable_retry_bound "production" (fun _ => some ⟨true⟩) ⟨true⟩ rfl
    (fun _ => rfl) "e.txt" []

/-- C3: a work item whose store operation fails with a fatal
(non-recoverable) error on its first attempt is added to the rejection list
after exactly one upload attempt, regardless of `maxTries`, and no retry
delay is scheduled for it. -/
theorem C3_fatal_short_circuit (env : String)
    (fn : Nat → Option TransferError) (e : TransferError)
    (he : isRecoverable e = false) (h0 : fn 0 = some e)
    (fname : String) (rl : List String) :
    processItem env false fn = ⟨1, [], Terminal.rejected⟩
    ∧ (runItemLogged env false fn fname rl).2 = rl ++ [fname] := by
  have hp : processItem env false fn = ⟨1, [], Terminal.rejected⟩ := by
    have h9 := processFrom_fatal env fn e he 0 9 h0
    simpa [processItem] using h9
  refine ⟨hp, ?_⟩
  simp [runItemLogged, hp, syncedListAdd]

/-- Witness for C3 at a concrete fatally-failing store stub. -/
theorem C3_fatal_short_circuit_witness :
    processItem "production" false (fun _ => some ⟨false⟩)
      = ⟨1, [], Terminal.rejected⟩
    ∧ (runItemLogged "production" false (fun _ => some ⟨false⟩) "d.txt" []).2
        = [] ++ ["d.txt"] :=
  C3_fatal_short_circuit "production" (fun _ => some ⟨false⟩) ⟨false⟩ rfl rfl
    "d.txt" []

/-- C4: outside the test environment, the delay scheduled before an item is
re-submitted equals the base delay of 100 ms (in nanoseconds) multiplied by
2 to the item attempt counter, and successive delays strictly increase. -/
theorem C4_backoff_is_exponential (env : String) (a : Nat)
    (henv : env ≠ testEnv) :
    waitNs env a = 100 * 2 ^ a * 1000000
    ∧ waitNs env a < waitNs env (a + 1) := by
  have h1 : waitNs env a = 100 * 2 ^ a * 1000000 := by simp [waitNs, henv]
  have h2 : waitNs env (a + 1) = 100 * 2 ^ (a + 1) * 1000000 := by
    simp [waitNs, henv]
  refine ⟨h1, ?_⟩
  rw [h1, h2]
  have hx : 0 < 2 ^ a := Nat.pos_pow_of_pos a (by norm_num)
  have h2a : (2 : Nat) ^ (a + 1) = 2 * 2 ^ a := by rw [pow_succ]; ring
  rw [h2a]
  omega

/-- Witness for C4 at the production environment and attempt counter 3. -/
theorem C4_backoff_is_exponential_witness :
    waitNs "production" 3 = 100 * 2 ^ 3 * 1000000
    ∧ waitNs "production" 3 < waitNs "production" (3 + 1) :=
  C4_backoff_is_exponential "production" 3 (by decide)

/-- C6: in dry-run mode every work item completes successfully with zero
store calls and no retry delays, and the cache phase is skipped entirely,
leaving the cache file on disk unchanged. -/
theorem C6_dry_run_no_side_effects (env : String)
    (fn : Nat → Option TransferError) (current : FileHashes)
    (rejectedList : List String) (writeOk : Bool) (d : Disk) :
    processItem env true fn = ⟨0, [], Terminal.uploaded⟩
    ∧ runCachePhase true true current rejectedList writeOk d
        = (CacheOutcome.skippedDryRun, d) := by
  constructor
  · simp [processItem]
  · simp [runCachePhase]

/-- C8: a failed dump leaves the previous cache file intact, the failure is
reported to the caller rather than swallowed, and `main` surfaces it with
the dedicated `CachingFailure` exit code, distinct from `Success`. -/
theorem C8_dump_failure_keeps_previous_cache (fh current : FileHashes)
    (rejectedList : List String) (d : Disk) :
    (dump fh false d).1 = d
    ∧ (dump fh false d).2 = false
    ∧ runCachePhase true false current rejectedList false d
        = (CacheOutcome.writeFailed, d)
    ∧ cacheExitCode CacheOutcome.writeFailed = CachingFailure
    ∧ cacheExitCode (CacheOutcome.wrote fh) = Success
    ∧ CachingFailure ≠ Success := by
  refine ⟨rfl, rfl, by simp [runCachePhase, dump], rfl, rfl, by decide⟩

/-- C9: the rejection list is append-only: an add yields the previous list
with the new path appended, a whole run of adds appends the batch in order,
and no position already present is ever removed or reordered. -/
theorem C9_rejection_list_append_only (l : List String) (x : String)
    (items : List String) :
    syncedListAdd l x = l ++ [x]
    ∧ List.foldl syncedListAdd l items = l ++ items
    ∧ ∀ i, i < l.length → (List.foldl syncedListAdd l items)[i]? = l[i]? := by
  refine ⟨rfl, foldl_syncedListAdd items l, ?_⟩
  intro i hi
  rw [foldl_syncedListAdd items l, List.getElem?_append_left hi]

/-- Witness for C9 at a concrete list and batch of adds. -/
theorem C9_rejection_list_append_only_witness :
    (List.foldl syncedListAdd ["a.txt"] ["b.txt", "c.txt"])[0]?
      = (["a.txt"] : List String)[0]? :=
  (C9_rejection_list_append_only ["a.txt"] "b.txt" ["b.txt", "c.txt"]).2.2 0
    (by decide)

/-- C10: whenever the application environment equals "test", the scheduled
retry delay is a fixed one nanosecond, for every attempt counter, overriding
the exponential backoff formula. -/
theorem C10_test_env_fixed_delay (env : String) (attempts : Nat)
    (h : env = testEnv) : waitNs env attempts = 1 := by
  simp [waitNs, h]

/-- Witness for C10 at attempt counter 7. -/
theorem C10_test_env_fixed_delay_witness : waitNs testEnv 7 = 1 :=
  C10_test_env_fixed_delay testEnv 7 rfl

/-- C5: after the pipeline completes, the cache phase persists exactly the
current fingerprint set minus the rejected paths: a rejected path is absent
from the persisted set whatever the prior cache held for it, a non-rejected
entry of `current` is kept, and a run with rejections still attempts the
write (the outcome is a write or a surfaced write failure, never a skip). -/
theorem C5_persisted_cache_current_minus_rejected (current : FileHashes)
    (rejectedList : List String) (writeOk : Bool) (d : Disk) (p h : String) :
    (runCachePhase true false current rejectedList writeOk d).1
      = (if writeOk then
           CacheOutcome.wrote (FileHashes.reject current rejectedList)
         else CacheOutcome.writeFailed)
    ∧ ((p, h) ∈ FileHashes.reject current rejectedList
        ↔ (p, h) ∈ current ∧ p ∉ rejectedList)
    ∧ (p ∈ rejectedList →
        ∀ h2, (p, h2) ∉ FileHashes.reject current rejectedList) := by
  refine ⟨?_, mem_reject_iff current rejectedList p h, ?_⟩
  · cases writeOk <;> simp [runCachePhase, dump]
  · intro hp h2 hmem
    exact ((mem_reject_iff current rejectedList p h2).1 hmem).2 hp

/-- Witness for C5: a rejected path is excluded from the persisted set. -/
theorem C5_persisted_cache_current_minus_rejected_witness :
    "d.txt" ∈ ["d.txt"]
    ∧ ∀ h2,
        ("d.txt", h2) ∉
          FileHashes.reject [("a.txt", "h1"), ("d.txt", "h4")] ["d.txt"] :=
  ⟨by decide,
    (C5_persisted_cache_current_minus_rejected
      [("a.txt", "h1"), ("d.txt", "h4")] ["d.txt"] true ⟨none⟩ "d.txt"
      "h4").2.2 (by decide)⟩

/-- C7: header resolution iterates the configured rules in declaration
order and returns the header set of the first matching pattern; when no rule
matches it returns the empty header set, which carries no encoding or
caching directive and no compression.  Resolution reads nothing but the
rule list and the path string, so it is pure by construction. -/
theorem C7_first_match_wins (rules : List pathToHeaders) (path : String) :
    (∀ i (hi : i < rules.length),
      (rules.get ⟨i, hi⟩).hits path = true →
      (∀ j (hj : j < i), (rules.get ⟨j, Nat.lt_trans hj hi⟩).hits path = false) →
      resolveHeaders rules path = (rules.get ⟨i, hi⟩).hdrs)
    ∧ ((∀ rule ∈ rules, rule.hits path = false) →
      resolveHeaders rules path = {}
      ∧ headers.shouldCompress (resolveHeaders rules path) = false) := by
  constructor
  · intro i hi hhit hprev
    simp only [resolveHeaders, find_first_hit rules path i hi hhit hprev]
  · intro hnone
    have hfind : rules.find? (fun rule => rule.hits path) = none := by
      rw [List.find?_eq_none]
      intro rule hrule
      simp [hnone rule hrule]
    have h1 : resolveHeaders rules path = {} := by
      simp [resolveHeaders, hfind]
    exact ⟨h1, by rw [h1]; decide⟩

/-- Witness for C7: the spec example, where an html path resolves to the
gzip rule of a two-rule table. -/
theorem C7_first_match_wins_witness :
    resolveHeaders
      [⟨fun p => p == "index.html",
        { ContentEncoding := "gzip", CacheControl := "max-age=3600" }⟩,
       ⟨fun _ => true, {}⟩] "index.html"
      = { ContentEncoding := "gzip", CacheControl := "max-age=3600" } :=
  (C7_first_match_wins
    [⟨fun p => p == "index.html",
      { ContentEncoding := "gzip", CacheControl := "max-age=3600" }⟩,
     ⟨fun _ => true, {}⟩] "index.html").1 0 (by decide) (by decide)
    (fun j hj => absurd hj (Nat.not_lt_zero j))

/-- C1: the work list seeded into the pipeline contains exactly the paths
present in `current` that are absent from `old` or carry a different hash
there (a path present with an identical hash in both is never seeded), in
deterministic lexicographically sorted order. -/
theorem C1_seed_list_exact_and_sorted (current old : FileHashes) (p : String)
    (hnd : (current.map Prod.fst).Nodup) :
    (p ∈ seedList current old
      ↔ ∃ h, current.lookup p = some h ∧ old.lookup p ≠ some h)
    ∧ (seedList current old).Sorted (fun a b => a ≤ b) := by
  constructor
  · rw [seedList, (List.perm_insertionSort _ _).mem_iff]
    unfold FileHashes.diff
    simp only [List.mem_map, List.mem_filter]
    constructor
    · rintro ⟨⟨q, hh⟩, ⟨hin, hne⟩, rfl⟩
      refine ⟨hh, (lookup_eq_some_iff_mem current q hh hnd).2 hin, ?_⟩
      simpa using hne
    · rintro ⟨hh, hlook, hne⟩
      refine ⟨(p, hh), ⟨(lookup_eq_some_iff_mem current p hh hnd).1 hlook, ?_⟩,
        rfl⟩
      simpa using hne
  · exact List.sorted_insertionSort _ _

/-- Witness for C1 at the spec scenario: `a.txt` is new, `b.txt` unchanged,
`c.txt` modified. -/
theorem C1_seed_list_exact_and_sorted_witness :
    ((([("c.txt", "h3c"), ("a.txt", "h1a"), ("b.txt", "h2b")] : FileHashes).map
        Prod.fst).Nodup)
    ∧ ("c.txt" ∈ seedList
          [("c.txt", "h3c"), ("a.txt", "h1a"), ("b.txt", "h2b")]
          [("b.txt", "h2b"), ("c.txt", "old")]
        ↔ ∃ h,
            ([("c.txt", "h3c"), ("a.txt", "h1a"), ("b.txt", "h2b")] :
              FileHashes).lookup "c.txt" = some h
            ∧ ([("b.txt", "h2b"), ("c.txt", "old")] :
                FileHashes).lookup "c.txt" ≠ some h)
    ∧ (seedList [("c.txt", "h3c"), ("a.txt", "h1a"), ("b.txt", "h2b")]
        [("b.txt", "h2b"), ("c.txt", "old")]).Sorted (fun a b => a ≤ b) :=
  ⟨by decide,
    (C1_seed_list_exact_and_sorted
      [("c.txt", "h3c"), ("a.txt", "h1a"), ("b.txt", "h2b")]
      [("b.txt", "h2b"), ("c.txt", "old")] "c.txt" (by decide)).1,
    (C1_seed_list_exact_and_sorted
      [("c.txt", "h3c"), ("a.txt", "h1a"), ("b.txt", "h2b")]
      [("b.txt", "h2b"), ("c.txt", "old")] "c.txt" (by decide)).2⟩

end GoS3Uploader
